import Mathlib

/-!
Shallow embedding of the provenance and publication-integrity subsystem of
the repository (scripts/provenance.py, scripts/check_git_state.py,
scripts/publish_artifacts.py, scripts/publish_specific_files.py).

Python dictionaries loaded from / dumped to YAML are modelled by the
inductive type Yaml below (insertion-ordered association lists, as CPython
dicts are insertion-ordered).  SystemExit exceptions raised by the scripts
are modelled as structured error values carrying exactly the data that the
source interpolates into the exit message.  File contents are modelled as
strings; the SHA-256 digest function is an explicit parameter "sha" (the
claims under study only need that it is a deterministic function of the
content bytes).  Timestamps returned by now_utc_iso are a parameter "now"
of each modelled CLI invocation (all calls inside one short invocation).
-/

set_option autoImplicit false

namespace Repro

/-- Model of a Python value as read from or written to YAML: null, bool,
int, string, list, or insertion-ordered dict. Floats (the mtime field) are
modelled as integers; no claim under study depends on mtime values. -/
inductive Yaml where
  | nullv
  | b (v : Bool)
  | i (v : Int)
  | s (v : String)
  | arr (items : List Yaml)
  | map (entries : List (String × Yaml))

/-- Lookup of a key in an association list, first match (CPython dicts hold
each key once, so first match is the match). -/
def lookupPairs (es : List (String × Yaml)) (k : String) : Option Yaml :=
  match es with
  | [] => none
  | (k1, v1) :: rest => if k1 = k then some v1 else lookupPairs rest k

/-- Python dict.get(k, default), defined on the Yaml model.  On non-dict
values the call sites in the source never receive a non-dict, so the
default is returned. -/
def Yaml.getD (y : Yaml) (k : String) (d : Yaml) : Yaml :=
  match y with
  | .map es =>
    match lookupPairs es k with
    | some v => v
    | none => d
  | _ => d

/-- Python "k in dict" test. -/
def Yaml.hasKey (y : Yaml) (k : String) : Bool :=
  match y with
  | .map es => es.any (fun e => e.1 == k)
  | _ => false

/-- Replace the value of a key in place if present, else append the new key
at the end: the semantics of assignment dict[k] = v on an insertion-ordered
dict. -/
def setPairs (es : List (String × Yaml)) (k : String) (v : Yaml) : List (String × Yaml) :=
  match es with
  | [] => [(k, v)]
  | (k1, v1) :: rest => if k1 = k then (k, v) :: rest else (k1, v1) :: setPairs rest k v

/-- Python dict assignment dict[k] = v.  Assignment on a non-dict raises in
Python; the call sites under study only assign into dicts, so non-dict
values are returned unchanged. -/
def Yaml.set (y : Yaml) (k : String) (v : Yaml) : Yaml :=
  match y with
  | .map es => .map (setPairs es k v)
  | _ => y

/-- Python dict.setdefault(k, v). -/
def Yaml.setD (y : Yaml) (k : String) (v : Yaml) : Yaml :=
  if y.hasKey k then y else y.set k v

/-- Python "del dict[k]" (guarded by "k in dict" at the call site, so the
missing-key case simply removes nothing). -/
def Yaml.del (y : Yaml) (k : String) : Yaml :=
  match y with
  | .map es => .map (es.filter (fun e => e.1 != k))
  | _ => y

/-- Python truthiness of a value, as used in "if x:" tests on values read
from YAML dicts. -/
def Yaml.truthy (y : Yaml) : Bool :=
  match y with
  | .nullv => false
  | .b v => v
  | .i v => v != 0
  | .s v => v != ""
  | .arr l => !l.isEmpty
  | .map es => !es.isEmpty

/-- The string content of a Yaml value, used where the source manipulates a
value that is a string in every reachable state (commit ids, paths).  A
non-string here would raise a TypeError in the source. -/
def Yaml.strOf (y : Yaml) : String :=
  match y with
  | .s v => v
  | _ => ""

/-- Tests whether the value is a dict. -/
def Yaml.isMap (y : Yaml) : Bool :=
  match y with
  | .map _ => true
  | _ => false

mutual

/-- Python equality of YAML values, as in the comparison
artifact_commit != current_commit.  At every reachable call site both sides
are scalars, where this coincides with Python ==. -/
def Yaml.beq : Yaml → Yaml → Bool
  | .nullv, .nullv => true
  | .b a, .b c => a == c
  | .i a, .i c => a == c
  | .s a, .s c => a == c
  | .arr a, .arr c => Yaml.beqL a c
  | .map a, .map c => Yaml.beqP a c
  | _, _ => false

def Yaml.beqL : List Yaml → List Yaml → Bool
  | [], [] => true
  | x :: xs, y :: ys => Yaml.beq x y && Yaml.beqL xs ys
  | _, _ => false

def Yaml.beqP : List (String × Yaml) → List (String × Yaml) → Bool
  | [], [] => true
  | (k1, v1) :: xs, (k2, v2) :: ys => k1 == k2 && Yaml.beq v1 v2 && Yaml.beqP xs ys
  | _, _ => false

end

/-- An Option String rendered as a YAML value (None becomes null). -/
def optY (o : Option String) : Yaml :=
  match o with
  | none => Yaml.nullv
  | some v => Yaml.s v

/-- The observable behaviour of the git binary on the repository, the input
of the Repository State Inspector git_state (provenance.py lines 34-73):
head is the output of rev-parse HEAD (none when not a git repo),
dirtyWorktree is whether "git diff --quiet" or "git diff --cached --quiet"
fails, branch and upstream are the rev-parse outputs (none on failure, in
particular none when no upstream is configured), and aheadBehind is the
parsed "rev-list --left-right --count" output when it contains a tab. -/
structure RepoStatus where
  head : Option String
  dirtyWorktree : Bool
  branch : Option String
  upstream : Option String
  aheadBehind : Option (Int × Int)

/-- Embedding of git_state (provenance.py lines 34-73): returns the dict
with only is_git_repo=false when rev-parse HEAD fails, otherwise the full
dict in source key order, with ahead/behind null unless an upstream is
configured and the rev-list output parsed. -/
def git_state (r : RepoStatus) : Yaml :=
  match r.head with
  | none => .map [("is_git_repo", .b false)]
  | some commit =>
    let upstreamY := optY r.upstream
    let ab : Yaml × Yaml :=
      if upstreamY.truthy then
        match r.aheadBehind with
        | some (a, bh) => (.i a, .i bh)
        | none => (.nullv, .nullv)
      else (.nullv, .nullv)
    .map [("is_git_repo", .b true), ("commit", .s commit), ("branch", optY r.branch),
          ("dirty", .b r.dirtyWorktree), ("upstream", upstreamY),
          ("ahead", ab.1), ("behind", ab.2)]

/-- The SystemExit exceptions raised by the publication scripts, carrying
the data interpolated into the source exit messages:
dirtyTree is "Refusing to publish from a dirty working tree",
behindUpstream n is "behind upstream by n commit(s)",
dirtyArtifacts is "some artifacts were built from a dirty working tree"
followed by one line per name,
staleArtifacts is "some artifacts were not built from current HEAD"
followed by one "name: built from old, but HEAD is new" line per triple,
noNames / noFiles / missingBuildRecord / missingSource / sourceNotFound /
notInOutput are the remaining publish-time exits. -/
inductive SysExit where
  | dirtyTree
  | behindUpstream (n : Int)
  | dirtyArtifacts (names : List String)
  | staleArtifacts (stale : List (String × String × String))
  | noNames
  | missingBuildRecord (name : String)
  | missingSource (path : String)
  | noFiles
  | sourceNotFound (path : String)
  | notInOutput (path : String)
deriving DecidableEq

/-- Tokenizer over the character list: maximal runs of non-whitespace
characters, in order, empty runs dropped. -/
def ws_tokens (cs : List Char) (acc : List Char) : List String :=
  match cs with
  | [] => if acc.isEmpty then [] else [String.mk acc.reverse]
  | c :: rest =>
    if c.isWhitespace then
      if acc.isEmpty then ws_tokens rest [] else String.mk acc.reverse :: ws_tokens rest []
    else ws_tokens rest (c :: acc)

/-- Python str.split() (split on whitespace runs, no empty tokens), used
with the no-op filter on n.strip() to parse the space-separated artifact
or file argument. -/
def split_names (sarg : String) : List String := ws_tokens sarg.toList []

/-- Python slicing s[:7] on the string value (character-based, as Python
slicing is). -/
def take7 (sv : String) : String := String.mk (sv.toList.take 7)

/-- The behind-upstream gate (check_git_state.py lines 35-41 and the
identical publish_artifacts.py lines 46-52): when require_not_behind is
truthy and the behind field is a positive int, exit. -/
def behind_exit (state : Yaml) (requireNotBehind : Int) : Option SysExit :=
  if requireNotBehind != 0 then
    match state.getD "behind" .nullv with
    | .i n => if n > 0 then some (SysExit.behindUpstream n) else none
    | _ => none
  else none

/-- Whether the Build Record of one artifact records a dirty embedded repo
state (check_git_state.py lines 48-54): a missing record is skipped. -/
def record_dirty (provDir : String → Option Yaml) (name : String) : Bool :=
  match provDir name with
  | none => false
  | some meta => ((meta.getD "git" (.map [])).getD "dirty" (.b false)).truthy

/-- The list of all artifacts built from a dirty tree, in argument order
(the dirty_artifacts accumulation loop of check_git_state.py lines 47-54). -/
def dirty_artifacts_of (names : List String) (provDir : String → Option Yaml) : List String :=
  names.filter (record_dirty provDir)

/-- The stale-artifact accumulation loop shared verbatim by
check_git_state.py lines 68-75 and publish_artifacts.py lines 59-66: for
each name with an existing record, read the top-level key git_commit with
default the empty string, and flag the artifact when that value is truthy
and differs from the current commit.  The stored triple truncates both
commit ids to 7 characters as the source does at the append. -/
def stale_of (names : List String) (provDir : String → Option Yaml) (currentCommit : Yaml) :
    List (String × String × String) :=
  names.filterMap fun name =>
    match provDir name with
    | none => none
    | some meta =>
      let ac := meta.getD "git_commit" (.s "")
      if ac.truthy && !(Yaml.beq ac currentCommit) then
        some (name, take7 ac.strOf, take7 currentCommit.strOf)
      else none

/-- The per-artifact checks of check_git_state.py lines 44-82, entered when
the artifact list is nonempty: reject when some artifact was built dirty
and allow_dirty is unset, else when require_current_head is set, the
current commit is truthy and some artifact is stale, reject with the full
stale list. -/
def artifact_checks (state : Yaml) (allowDirty requireCurrentHead : Int)
    (names : List String) (provDir : String → Option Yaml) : Except SysExit Unit :=
  let dirty := dirty_artifacts_of names provDir
  if !dirty.isEmpty && allowDirty == 0 then .error (SysExit.dirtyArtifacts dirty)
  else if requireCurrentHead != 0 then
    let currentCommit := state.getD "commit" (.s "")
    if currentCommit.truthy then
      let stale := stale_of names provDir currentCommit
      if !stale.isEmpty then .error (SysExit.staleArtifacts stale) else .ok ()
    else .ok ()
  else .ok ()

/-- Embedding of check_git_state.py main (lines 15-82): pass when the
repository is unversioned; exit on a dirty working tree unless allow_dirty;
exit when behind upstream and require_not_behind; then run the
per-artifact checks on the space-separated artifact list.  The three flags
are the argparse integers; Python "not flag" is flag == 0. -/
def check_git_state_main (allowDirty requireNotBehind requireCurrentHead : Int)
    (artifactsArg : String) (r : RepoStatus) (provDir : String → Option Yaml) :
    Except SysExit Unit :=
  let state := git_state r
  if !(state.getD "is_git_repo" (.b false)).truthy then .ok ()
  else if (state.getD "dirty" (.b false)).truthy && allowDirty == 0 then
    .error SysExit.dirtyTree
  else
    match behind_exit state requireNotBehind with
    | some e => .error e
    | none =>
      let names := split_names artifactsArg
      if names.isEmpty then .ok ()
      else artifact_checks state allowDirty requireCurrentHead names provDir

/-- The content and modification time of one file.  Content is the byte
stream as a string; mtime is modelled as an integer. -/
structure FileData where
  content : String
  mtime : Int
deriving DecidableEq

/-- The file system visible to the scripts: a partial map from paths
(project-root-relative strings) to file data. -/
abbrev FS := String → Option FileData

/-- Writing one file (creation or overwrite). -/
def fsWrite (fs : FS) (p : String) (d : FileData) : FS :=
  fun q => if q = p then some d else fs q

/-- Embedding of copy_if_changed (publish_artifacts.py lines 26-32,
duplicated in publish_specific_files.py lines 42-48): if the destination
exists and source and destination digests agree, skip; else copy content
and metadata (shutil.copy2).  Returns the copied flag and the resulting
file system.  Both call sites check that src exists first; the missing-src
branch (an IOError in the source) is unreachable there. -/
def copy_if_changed (sha : String → String) (fs : FS) (src dst : String) : Bool × FS :=
  match fs src with
  | none => (true, fs)
  | some srcData =>
    match fs dst with
    | some dstData =>
      if sha srcData.content == sha dstData.content then (false, fs)
      else (true, fsWrite fs dst srcData)
    | none => (true, fsWrite fs dst srcData)

/-- Embedding of enforce_git_policy (publish_artifacts.py lines 35-54):
returns the git state dict when the policy passes, allowing an unversioned
repository unconditionally; exits on a dirty tree unless allow_dirty, then
on behind-upstream when require_not_behind. -/
def enforce_git_policy (r : RepoStatus) (allowDirty requireNotBehind : Int) :
    Except SysExit Yaml :=
  let state := git_state r
  if !(state.getD "is_git_repo" (.b false)).truthy then .ok state
  else if (state.getD "dirty" (.b false)).truthy && allowDirty == 0 then
    .error SysExit.dirtyTree
  else
    match behind_exit state requireNotBehind with
    | some e => .error e
    | none => .ok state

/-- The IOError raised when hashing or stat-ing a path that does not exist
(provenance.py sha256_file opening the file). -/
inductive WriteErr where
  | fileNotFound (path : String)
deriving DecidableEq

/-- The per-path File Content Record loops of write_build_record
(provenance.py lines 92-114): for each path in order, hash and stat it,
failing with the IOError naming the first path that does not exist. -/
def hash_records (sha : String → String) (fs : FS) : List String → Except WriteErr (List Yaml)
  | [] => .ok []
  | p :: rest =>
    match fs p with
    | none => .error (WriteErr.fileNotFound p)
    | some fd =>
      match hash_records sha fs rest with
      | .error e => .error e
      | .ok rs =>
        .ok (Yaml.map [("path", .s p), ("sha256", .s (sha fd.content)),
                       ("bytes", .i fd.content.length), ("mtime", .i fd.mtime)] :: rs)

/-- Embedding of write_build_record (provenance.py lines 80-128) up to
persistence: hash every input, then every output, then assemble the record
dict in source key order.  An error means the record was never assembled
and nothing reached the destination path. -/
def write_build_record (artifactName : String) (command : List String) (r : RepoStatus)
    (inputs outputs : List String) (fs : FS) (now : String) (sha : String → String) :
    Except WriteErr Yaml :=
  match hash_records sha fs inputs with
  | .error e => .error e
  | .ok ins =>
    match hash_records sha fs outputs with
    | .error e => .error e
    | .ok outs =>
      .ok (Yaml.map [("artifact", .s artifactName), ("built_at_utc", .s now),
                     ("command", .arr (command.map Yaml.s)), ("git", git_state r),
                     ("inputs", .arr ins), ("outputs", .arr outs)])

/-- A store of serialised files on disk, for the persistence discipline:
path to serialised text. -/
abbrev Store := String → Option String

/-- Run a list of store transitions in order; a crash after k steps leaves
the store produced by the first k transitions. -/
def run_steps (steps : List (Store → Store)) (st : Store) : Store :=
  steps.foldl (fun s f => f s) st

/-- The sibling temporary path path.with_suffix(suffix + ".tmp") used by
both writers, which for any destination path is the path with ".tmp"
appended. -/
def tmp_path (p : String) : String := p ++ ".tmp"

/-- The atomic-replace discipline shared by write_build_record
(provenance.py lines 125-128) and save_yml (publish_artifacts.py lines
18-23 and publish_specific_files.py lines 34-39) as its two store
transitions: first write the serialised text to the sibling temporary
path, then rename the temporary over the destination (os.replace: the
destination receives the temporary content and the temporary disappears,
in one step). -/
def atomic_replace_steps (path serialized : String) : List (Store → Store) :=
  [fun st => fun q => if q = tmp_path path then some serialized else st q,
   fun st => fun q =>
     if q = path then st (tmp_path path)
     else if q = tmp_path path then none
     else st q]

/-- Embedding of save_yml: serialise the object with the dump function
(yaml.safe_dump) and persist it with the atomic-replace discipline. -/
def save_yml (path : String) (obj : Yaml) (dump : Yaml → String) : List (Store → Store) :=
  atomic_replace_steps path (dump obj)

/-- The source path of an artifact of the given kind inside the analysis
repository (publish_artifacts.py lines 132-137). -/
def src_path (kind name : String) : String :=
  if kind == "figures" then "output/figures/" ++ name ++ ".pdf"
  else "output/tables/" ++ name ++ ".tex"

/-- The destination path of an artifact of the given kind inside the paper
repository (publish_artifacts.py lines 114 and 132-137). -/
def dst_path (kind name : String) : String :=
  if kind == "figures" then "paper/figures/" ++ name ++ ".pdf"
  else "paper/tables/" ++ name ++ ".tex"

/-- The require-current-head gate of publish_artifacts.py lines 107-111
together with check_artifacts_current (lines 57-73): when the flag is set,
the repository is versioned and the current commit truthy, exit when the
stale list is nonempty. -/
def head_check (gitinfo : Yaml) (requireCurrentHead : Int) (names : List String)
    (provDir : String → Option Yaml) : Option SysExit :=
  if requireCurrentHead != 0 && (gitinfo.getD "is_git_repo" (.b false)).truthy then
    let currentCommit := gitinfo.getD "commit" (.s "")
    if currentCommit.truthy then
      let stale := stale_of names provDir currentCommit
      if !stale.isEmpty then some (SysExit.staleArtifacts stale) else none
    else none
  else none

/-- The per-artifact publish loop of publish_artifacts.py lines 124-152.
The state threads the file system and the ledger dict; a SystemExit in the
middle of the loop carries the file system as it stands at the abort (files
copied for earlier names stay copied), and no ledger is produced (the
ledger file is only written after the loop). -/
def publish_loop (kind : String) (provDir : String → Option Yaml) (now : String)
    (sha : String → String) : List String → FS → Yaml → Except (SysExit × FS) (FS × Yaml)
  | [], fs, prov => .ok (fs, prov)
  | name :: rest, fs, prov =>
    match provDir name with
    | none => .error (SysExit.missingBuildRecord name, fs)
    | some meta =>
      let src := src_path kind name
      let dst := dst_path kind name
      match fs src with
      | none => .error (SysExit.missingSource src, fs)
      | some _ =>
        let cp := copy_if_changed sha fs src dst
        let copied := cp.1
        let fs1 := cp.2
        let dstSha :=
          match fs1 dst with
          | some d => sha d.content
          | none => ""
        let entry := Yaml.map [("published_at_utc", .s now), ("copied", .b copied),
                               ("src", .s src), ("dst", .s dst),
                               ("dst_sha256", .s dstSha), ("build_record", meta)]
        let arts := prov.getD "artifacts" (.map [])
        let artEntry := (arts.getD name (.map [])).set kind entry
        let prov1 := prov.set "artifacts" (arts.set name artEntry)
        publish_loop kind provDir now sha rest fs1 prov1

/-- Embedding of publish_artifacts.py main (lines 76-155): enforce the git
policy, parse the artifact names, run the require-current-head gate, load
the ledger (ledger0, none when the file does not exist; load_yml always
yields a dict) and apply the setdefault chain of lines 119-122, run the
copy loop, and stamp last_updated_utc before the final save.  A SystemExit
carries the file system at the abort and produces no ledger. -/
def publish_artifacts_main (r : RepoStatus) (kind namesArg : String)
    (allowDirty requireNotBehind requireCurrentHead : Int)
    (provDir : String → Option Yaml) (fs : FS)
    (ledger0 : Option (List (String × Yaml))) (now : String) (sha : String → String) :
    Except (SysExit × FS) (FS × Yaml) :=
  match enforce_git_policy r allowDirty requireNotBehind with
  | .error e => .error (e, fs)
  | .ok gitinfo =>
    let names := split_names namesArg
    if names.isEmpty then .error (SysExit.noNames, fs)
    else
      match head_check gitinfo requireCurrentHead names provDir with
      | some e => .error (e, fs)
      | none =>
        let prov0 := ((((Yaml.map (ledger0.getD [])).setD "paper_provenance_version" (.i 1)
          ).setD "last_updated_utc" (.s now)).setD "analysis_git" gitinfo
          ).setD "artifacts" (.map [])
        match publish_loop kind provDir now sha names fs prov0 with
        | .error e => .error e
        | .ok (fs1, prov1) => .ok (fs1, prov1.set "last_updated_utc" (.s now))

/-- Embedding of infer_analysis_name (publish_specific_files.py lines
51-71): scan the provenance directory (an association list of analysis
stem and parsed record, in directory iteration order) for the first record
whose outputs list contains the resolved source path; a record whose
outputs are not a list raises and is skipped by the bare except. -/
def infer_analysis_name (provFiles : List (String × Yaml)) (src : String) : Option String :=
  provFiles.findSome? fun e =>
    match (e.2).getD "outputs" (.arr []) with
    | .arr items =>
      if items.any (fun oi => (oi.getD "path" (.s "")).strOf == src) then some e.1 else none
    | _ => none

/-- One file key of the file-level publisher: the path relative to the
output directory, defined when the source path lies under output/. -/
def rel_to_output (src : String) : Option String :=
  if List.isPrefixOf "output/".toList src.toList then some (String.mk (src.toList.drop 7))
  else none

/-- The per-file publish loop of publish_specific_files.py lines 110-156:
for each file, require existence, require it to lie under output/, infer
the owning analysis and embed its record when found, copy if changed, and
record the ledger entry under the output-relative key.  As in
publish_loop, an abort carries the file system at the abort and produces
no ledger. -/
def files_loop (provFiles : List (String × Yaml)) (now : String) (sha : String → String) :
    List String → FS → Yaml → Except (SysExit × FS) (FS × Yaml)
  | [], fs, prov => .ok (fs, prov)
  | src :: rest, fs, prov =>
    match fs src with
    | none => .error (SysExit.sourceNotFound src, fs)
    | some _ =>
      match rel_to_output src with
      | none => .error (SysExit.notInOutput src, fs)
      | some rel =>
        let dst := "paper/" ++ rel
        let analysisName := infer_analysis_name provFiles src
        let buildRecord :=
          match analysisName with
          | none => Yaml.nullv
          | some a =>
            match lookupPairs provFiles a with
            | some meta => meta
            | none => Yaml.nullv
        let cp := copy_if_changed sha fs src dst
        let copied := cp.1
        let fs1 := cp.2
        let dstSha :=
          match fs1 dst with
          | some d => sha d.content
          | none => ""
        let entry := Yaml.map [("published_at_utc", .s now), ("copied", .b copied),
                               ("src", .s src), ("dst", .s dst),
                               ("dst_sha256", .s dstSha),
                               ("analysis_name", optY analysisName),
                               ("build_record", buildRecord)]
        let prov1 := prov.set "files" ((prov.getD "files" (.map [])).set rel entry)
        files_loop provFiles now sha rest fs1 prov1

/-- Embedding of publish_specific_files.py main (lines 74-159): read the
git state with no policy enforcement (the three flags are parsed on lines
79-81 and never used), parse the file list, apply the setdefault chain of
lines 97-99, reset the files section and delete the artifacts section
(lines 103-106), run the copy loop, and stamp last_updated_utc before the
final save. -/
def publish_specific_files_main (r : RepoStatus) (filesArg : String)
    (allowDirty requireNotBehind requireCurrentHead : Int)
    (provFiles : List (String × Yaml)) (fs : FS)
    (ledger0 : Option (List (String × Yaml))) (now : String) (sha : String → String) :
    Except (SysExit × FS) (FS × Yaml) :=
  let gitinfo := git_state r
  let files := split_names filesArg
  if files.isEmpty then .error (SysExit.noFiles, fs)
  else
    let prov0 := (((Yaml.map (ledger0.getD [])).setD "paper_provenance_version" (.i 1)
      ).setD "last_updated_utc" (.s now)).setD "analysis_git" gitinfo
    let prov1 := (prov0.set "files" (.map [])).del "artifacts"
    match files_loop provFiles now sha files fs prov1 with
    | .error e => .error e
    | .ok (fs1, prov2) => .ok (fs1, prov2.set "last_updated_utc" (.s now))

/-! Projections on the result of a publish invocation, used to state which
error occurred, which files ended on disk, and whether the ledger file was
rewritten (errors abort before the final save_yml, so an error result
carries no ledger). -/

def errOf (res : Except (SysExit × FS) (FS × Yaml)) : Option SysExit :=
  match res with
  | .error (e, _) => some e
  | .ok _ => none

def fsOf (res : Except (SysExit × FS) (FS × Yaml)) : FS :=
  match res with
  | .error (_, f) => f
  | .ok (f, _) => f

def ledgerOf (res : Except (SysExit × FS) (FS × Yaml)) : Option Yaml :=
  match res with
  | .ok (_, l) => some l
  | .error _ => none

/-- write_build_record including persistence, as the Build Record Writer
runs it: on success the serialised record replaces the destination through
the atomic steps; on an IOError the store is untouched. -/
def write_build_record_store (outMeta artifactName : String) (command : List String)
    (r : RepoStatus) (inputs outputs : List String) (fs : FS) (now : String)
    (sha : String → String) (dump : Yaml → String) (st : Store) :
    Store × Except WriteErr Yaml :=
  match write_build_record artifactName command r inputs outputs fs now sha with
  | .error e => (st, .error e)
  | .ok record => (run_steps (save_yml outMeta record dump) st, .ok record)

/-! Concrete inputs used by the per-claim evaluation theorems below. -/

/-- A one-file file system for the dirty-tree file-level publish run. -/
def c5fs : FS := fun p =>
  if p = "output/figures/f.pdf" then some ⟨"F", 0⟩ else none

/-- The repository state at which the Build Record of the stale-HEAD
scenario was written: clean tree at commit abc123. -/
def c1OldRepo : RepoStatus := ⟨some "abc123", false, some "main", none, none⟩

/-- The repository state at publish time: clean tree at commit def456. -/
def c1NewRepo : RepoStatus := ⟨some "def456", false, some "main", none, none⟩

/-- The file system holding the one output hashed into the record. -/
def c1fs : FS := fun p =>
  if p = "output/figures/price_base.pdf" then some ⟨"PB", 0⟩ else none

/-- The Build Record that write_build_record produces for price_base at
commit abc123. -/
def c1Record : Yaml :=
  (write_build_record "price_base" ["make", "price_base"] c1OldRepo []
      ["output/figures/price_base.pdf"] c1fs "t0" (fun s0 => s0)).toOption.getD Yaml.nullv

/-- The provenance directory holding that record under price_base.yml. -/
def c1prov : String → Option Yaml := fun n =>
  if n = "price_base" then some c1Record else none

/-- The file system of the partial-publish counterexample: the figure of
artifact a exists, the figure of artifact b does not. -/
def c2fs : FS := fun p => if p = "output/figures/a.pdf" then some ⟨"A", 0⟩ else none

/-- Build records exist for both artifacts. -/
def c2prov : String → Option Yaml := fun n =>
  if n = "a" || n = "b" then some (Yaml.map [("artifact", Yaml.s n)]) else none

/-- The publish run over artifacts a and b of the counterexample. -/
def c2run : Except (SysExit × FS) (FS × Yaml) :=
  publish_artifacts_main ⟨some "c0", false, some "main", none, none⟩ "figures" "a b" 0 1 0
    c2prov c2fs none "t0" (fun s0 => s0)

/-- A provenance directory whose record for artifact a carries a truthy
top-level git_commit differing from the current HEAD c0, so the
current-head gate of the publisher rejects. -/
def c2headProv : String → Option Yaml := fun n =>
  if n = "a" then some (Yaml.map [("git_commit", Yaml.s "olddead")]) else none

/-- The provenance directory of the combined-dirty-error witness: two
artifacts, both with a dirty embedded git state. -/
def c6prov : String → Option Yaml := fun n =>
  if n = "a1" || n = "a2" then
    some (Yaml.map [("git", Yaml.map [("dirty", Yaml.b true)])])
  else none

/-- The entries of a ledger value, as load_yml of a saved ledger file
yields them (a saved ledger is always a dict). -/
def yamlEntries (y : Yaml) : List (String × Yaml) :=
  match y with
  | .map es => es
  | _ => []

/-- The repository of the idempotent-publish runs: clean tree at c0. -/
def c3Repo : RepoStatus := ⟨some "c0", false, some "main", none, none⟩

/-- A build record for artifact a. -/
def c3prov : String → Option Yaml := fun n =>
  if n = "a" then some (Yaml.map [("artifact", Yaml.s "a")]) else none

/-- The initial file system: the figure exists, the destination does not. -/
def c3fs0 : FS := fun p => if p = "output/figures/a.pdf" then some ⟨"PDF", 0⟩ else none

/-- First publish of artifact a, at time t0, onto an absent ledger. -/
def c3run1 : Except (SysExit × FS) (FS × Yaml) :=
  publish_artifacts_main c3Repo "figures" "a" 0 1 0 c3prov c3fs0 none "t0" (fun s0 => s0)

/-- Second publish of the same unchanged artifact at time t1, over the file
system and ledger left by the first run. -/
def c3run2 : Except (SysExit × FS) (FS × Yaml) :=
  publish_artifacts_main c3Repo "figures" "a" 0 1 0 c3prov (fsOf c3run1)
    (some (yamlEntries ((ledgerOf c3run1).getD Yaml.nullv))) "t1" (fun s0 => s0)

/-- The figures ledger entry of artifact a in the result of a run. -/
def c3entry (run : Except (SysExit × FS) (FS × Yaml)) : Yaml :=
  ((((ledgerOf run).getD Yaml.nullv).getD "artifacts" (Yaml.map [])).getD "a"
    (Yaml.map [])).getD "figures" (Yaml.map [])

/-- A ledger previously written by a file-level publish: it holds a files
section. -/
def c4ledger : List (String × Yaml) :=
  [("files", Yaml.map [("figures/f.pdf", Yaml.map [])])]

/-- A ledger previously written by an analysis-level publish: it holds an
artifacts section. -/
def c4aledger : List (String × Yaml) :=
  [("artifacts", Yaml.map [("a", Yaml.map [])])]

/-- A build record for artifact a. -/
def c4prov : String → Option Yaml := fun n =>
  if n = "a" then some (Yaml.map [("artifact", Yaml.s "a")]) else none

/-- The figure of artifact a exists. -/
def c4fs : FS := fun p => if p = "output/figures/a.pdf" then some ⟨"A", 0⟩ else none

/-- An analysis-level publish of artifact a onto the file-level ledger. -/
def c4run : Except (SysExit × FS) (FS × Yaml) :=
  publish_artifacts_main ⟨some "c0", false, some "main", none, none⟩ "figures" "a" 0 1 0
    c4prov c4fs (some c4ledger) "t0" (fun s0 => s0)

/-- A file-level publish of one output file onto the analysis-level
ledger. -/
def c4fileRun : Except (SysExit × FS) (FS × Yaml) :=
  publish_specific_files_main ⟨some "c0", false, some "main", none, none⟩
    "output/figures/g.pdf" 0 1 0 []
    (fun p => if p = "output/figures/g.pdf" then some ⟨"G", 0⟩ else none)
    (some c4aledger) "t0" (fun s0 => s0)

/-! Lemmas about the dict operations, used to trace ledger contents through
the publish functions. -/

theorem lookupPairs_setPairs_self (es : List (String × Yaml)) (k : String) (v : Yaml) :
    lookupPairs (setPairs es k v) k = some v := by
  induction es with
  | nil => simp [setPairs, lookupPairs]
  | cons e rest ih =>
    obtain ⟨k1, v1⟩ := e
    by_cases h : k1 = k <;> simp [setPairs, lookupPairs, h, ih]

theorem lookupPairs_setPairs_ne (es : List (String × Yaml)) (k : String) (v : Yaml)
    (k1 : String) (h : k ≠ k1) : lookupPairs (setPairs es k v) k1 = lookupPairs es k1 := by
  induction es with
  | nil => simp [setPairs, lookupPairs, h]
  | cons e rest ih =>
    obtain ⟨k2, v2⟩ := e
    by_cases h2 : k2 = k
    · subst h2
      simp [setPairs, lookupPairs, h]
    · simp only [setPairs, if_neg h2, lookupPairs]
      by_cases h3 : k2 = k1 <;> simp [h3, ih]

theorem any_setPairs_self (es : List (String × Yaml)) (k : String) (v : Yaml) :
    (setPairs es k v).any (fun e => e.1 == k) = true := by
  induction es with
  | nil => simp [setPairs]
  | cons e rest ih =>
    obtain ⟨k1, v1⟩ := e
    by_cases h : k1 = k <;> simp [setPairs, h, ih]

theorem any_setPairs_ne (es : List (String × Yaml)) (k : String) (v : Yaml)
    (k1 : String) (h : k ≠ k1) :
    (setPairs es k v).any (fun e => e.1 == k1) = es.any (fun e => e.1 == k1) := by
  induction es with
  | nil => simp [setPairs, h]
  | cons e rest ih =>
    obtain ⟨k2, v2⟩ := e
    by_cases h2 : k2 = k
    · subst h2
      simp [setPairs, h]
    · simp only [setPairs, if_neg h2, List.any_cons, ih]

theorem any_filter_ne (es : List (String × Yaml)) (k : String) :
    (es.filter (fun e => e.1 != k)).any (fun e => e.1 == k) = false := by
  induction es with
  | nil => simp
  | cons e rest ih =>
    obtain ⟨k1, v1⟩ := e
    by_cases h : k1 = k <;> simp [List.filter_cons, h, ih]

theorem any_filter_ne_of_ne (es : List (String × Yaml)) (k k1 : String) (h : k ≠ k1) :
    (es.filter (fun e => e.1 != k)).any (fun e => e.1 == k1) = es.any (fun e => e.1 == k1) := by
  induction es with
  | nil => simp
  | cons e rest ih =>
    obtain ⟨k2, v2⟩ := e
    simp only [List.filter_cons, List.any_cons]
    by_cases h2 : k2 = k
    · rw [h2]
      have hk1 : (k == k1) = false := by simp [h]
      simp [ih, hk1]
    · have hb : (k2 != k) = true := by simp [bne_iff_ne, h2]
      simp [hb, ih]

theorem lookupPairs_eq_some_of_any (es : List (String × Yaml)) (k : String)
    (h : es.any (fun e => e.1 == k) = true) : ∃ v, lookupPairs es k = some v := by
  induction es with
  | nil => simp at h
  | cons e rest ih =>
    obtain ⟨k1, v1⟩ := e
    by_cases h1 : k1 = k
    · exact ⟨v1, by simp [lookupPairs, h1]⟩
    · simp only [List.any_cons] at h
      rcases Bool.or_eq_true_iff.mp h with h2 | h2
      · exact absurd (by simpa using h2) h1
      · obtain ⟨v, hv⟩ := ih h2
        exact ⟨v, by simp [lookupPairs, h1, hv]⟩

/-- set and setD keep the value a dict when it is one. -/
theorem isMap_set (y : Yaml) (k : String) (v : Yaml) (hy : y.isMap = true) :
    (y.set k v).isMap = true := by
  cases y <;> simp_all [Yaml.isMap, Yaml.set]

theorem isMap_setD (y : Yaml) (k : String) (v : Yaml) (hy : y.isMap = true) :
    (y.setD k v).isMap = true := by
  unfold Yaml.setD
  by_cases h : y.hasKey k <;> simp [h, hy, isMap_set]

/-- Reading back the key just assigned. -/
theorem getD_set_self (y : Yaml) (k : String) (v d : Yaml) (hy : y.isMap = true) :
    (y.set k v).getD k d = v := by
  cases y <;> simp_all [Yaml.isMap, Yaml.set, Yaml.getD, lookupPairs_setPairs_self]

/-- Assignment to one key leaves reads of any other key unchanged. -/
theorem getD_set_ne (y : Yaml) (k : String) (v : Yaml) (k1 : String) (d : Yaml)
    (h : k ≠ k1) : (y.set k v).getD k1 d = y.getD k1 d := by
  cases y <;> simp [Yaml.set, Yaml.getD, lookupPairs_setPairs_ne _ _ _ _ h]

theorem hasKey_set_self (y : Yaml) (k : String) (v : Yaml) (hy : y.isMap = true) :
    (y.set k v).hasKey k = true := by
  cases y <;> simp_all [Yaml.isMap, Yaml.set, Yaml.hasKey, any_setPairs_self]

theorem hasKey_set_ne (y : Yaml) (k : String) (v : Yaml) (k1 : String) (h : k ≠ k1) :
    (y.set k v).hasKey k1 = y.hasKey k1 := by
  cases y <;> simp [Yaml.set, Yaml.hasKey, any_setPairs_ne _ _ _ _ h]

theorem hasKey_setD_ne (y : Yaml) (k : String) (v : Yaml) (k1 : String) (h : k ≠ k1) :
    (y.setD k v).hasKey k1 = y.hasKey k1 := by
  unfold Yaml.setD
  by_cases hk : y.hasKey k <;> simp [hk, hasKey_set_ne _ _ _ _ h]

theorem getD_setD_ne (y : Yaml) (k : String) (v : Yaml) (k1 : String) (d : Yaml)
    (h : k ≠ k1) : (y.setD k v).getD k1 d = y.getD k1 d := by
  unfold Yaml.setD
  by_cases hk : y.hasKey k <;> simp [hk, getD_set_ne _ _ _ _ _ h]

/-- When a key is present, reads do not depend on the default. -/
theorem getD_default_irrel (y : Yaml) (k : String) (d d1 : Yaml)
    (h : y.hasKey k = true) : y.getD k d = y.getD k d1 := by
  cases y with
  | map es =>
    obtain ⟨v, hv⟩ := lookupPairs_eq_some_of_any es k (by simpa [Yaml.hasKey] using h)
    simp [Yaml.getD, hv]
  | _ => simp_all [Yaml.hasKey]

theorem any_of_lookupPairs (es : List (String × Yaml)) (k : String) (v : Yaml)
    (h : lookupPairs es k = some v) : es.any (fun e => e.1 == k) = true := by
  induction es with
  | nil => simp [lookupPairs] at h
  | cons e rest ih =>
    obtain ⟨k1, v1⟩ := e
    by_cases h1 : k1 = k
    · simp [h1]
    · simp only [lookupPairs, if_neg h1] at h
      simp [ih h]

/-- Reading an absent key returns the default. -/
theorem getD_of_not_hasKey (y : Yaml) (k : String) (d : Yaml)
    (h : y.hasKey k = false) : y.getD k d = d := by
  cases y with
  | map es =>
    simp only [Yaml.hasKey] at h
    simp only [Yaml.getD]
    cases hlv : lookupPairs es k with
    | none => rfl
    | some v => rw [any_of_lookupPairs es k v hlv] at h; cases h
  | nullv => rfl
  | b v => rfl
  | i v => rfl
  | s v => rfl
  | arr l => rfl

/-- Reading a key right after setdefault with the same default yields the
same value as reading it before. -/
theorem getD_setD (y : Yaml) (k : String) (d d1 : Yaml) (hy : y.isMap = true) :
    (y.setD k d).getD k d1 = y.getD k d := by
  unfold Yaml.setD
  by_cases hk : y.hasKey k
  · simp [hk, getD_default_irrel y k d1 d hk]
  · simp only [Bool.not_eq_true] at hk
    simp [hk, getD_set_self _ _ _ _ hy, getD_of_not_hasKey y k d hk]

/-- del really removes the key. -/
theorem hasKey_del_self (y : Yaml) (k : String) : (y.del k).hasKey k = false := by
  cases y <;> simp [Yaml.del, Yaml.hasKey, any_filter_ne]

theorem hasKey_del_ne (y : Yaml) (k k1 : String) (h : k ≠ k1) :
    (y.del k).hasKey k1 = y.hasKey k1 := by
  cases y <;> simp [Yaml.del, Yaml.hasKey, any_filter_ne_of_ne _ _ _ h]

/-- setdefault can only add the given key: any other absent key stays
absent, and a present key stays present. -/
theorem hasKey_setD_of_hasKey (y : Yaml) (k : String) (v : Yaml) (k1 : String)
    (h : y.hasKey k1 = true) : (y.setD k v).hasKey k1 = true := by
  unfold Yaml.setD
  by_cases hk : y.hasKey k
  · simpa [hk]
  · by_cases hkk : k = k1
    · subst hkk
      simp_all
    · simp [hk, hasKey_set_ne _ _ _ _ hkk, h]

theorem hasKey_set_of_hasKey (y : Yaml) (k : String) (v : Yaml) (k1 : String)
    (h : y.hasKey k1 = true) : (y.set k v).hasKey k1 = true := by
  by_cases hkk : k = k1
  · subst hkk
    cases y <;> simp_all [Yaml.hasKey, Yaml.set, any_setPairs_self]
  · simp [hasKey_set_ne _ _ _ _ hkk, h]

theorem hasKey_setD_self (y : Yaml) (k : String) (v : Yaml) (hy : y.isMap = true) :
    (y.setD k v).hasKey k = true := by
  unfold Yaml.setD
  by_cases hk : y.hasKey k
  · simp [hk]
  · simp [hk, hasKey_set_self _ _ _ hy]

/-! Claim C10. -/

/-- C10: on a directory not under version control the Repository State
Inspector returns a dict holding only is_git_repo=false, and both policy
enforcers (the standalone check and the one inside the artifact publisher)
pass unconditionally, for every assignment of the three flags and every
artifact list and provenance directory. -/
theorem C10_no_git_graceful_pass (dirty : Bool) (br up : Option String)
    (ab : Option (Int × Int)) (allowDirty requireNotBehind requireCurrentHead : Int)
    (artifactsArg : String) (provDir : String → Option Yaml) :
    git_state ⟨none, dirty, br, up, ab⟩ = Yaml.map [("is_git_repo", Yaml.b false)] ∧
    check_git_state_main allowDirty requireNotBehind requireCurrentHead artifactsArg
      ⟨none, dirty, br, up, ab⟩ provDir = Except.ok () ∧
    enforce_git_policy ⟨none, dirty, br, up, ab⟩ allowDirty requireNotBehind =
      Except.ok (git_state ⟨none, dirty, br, up, ab⟩) :=
  ⟨rfl, rfl, rfl⟩

/-! Claim C7. -/

/-- C7: the policy check short-circuits in source order: on a dirty working
tree with allow_dirty=0 the dirty-tree violation is the one reported, for
every branch, upstream and ahead/behind state (in particular when the
branch is behind upstream and require_not_behind is set) and every
artifact list. -/
theorem C7_dirty_tree_short_circuit (c : String) (br up : Option String)
    (ab : Option (Int × Int)) (requireNotBehind requireCurrentHead : Int)
    (artifactsArg : String) (provDir : String → Option Yaml) :
    check_git_state_main 0 requireNotBehind requireCurrentHead artifactsArg
      ⟨some c, true, br, up, ab⟩ provDir = Except.error SysExit.dirtyTree := rfl

/-! Claim C5. -/

/-- C5: the file-level publisher ignores its three policy flags: any two
flag assignments over the same repository state, file list, provenance
directory, file system and ledger produce identical results; and in
particular it publishes successfully from a dirty working tree with
allow-dirty=0. -/
theorem C5_file_publisher_ignores_flags (r : RepoStatus) (filesArg : String)
    (ad rnb rch ad1 rnb1 rch1 : Int) (provFiles : List (String × Yaml)) (fs : FS)
    (ledger0 : Option (List (String × Yaml))) (now : String) (sha : String → String) :
    publish_specific_files_main r filesArg ad rnb rch provFiles fs ledger0 now sha =
      publish_specific_files_main r filesArg ad1 rnb1 rch1 provFiles fs ledger0 now sha ∧
    errOf (publish_specific_files_main ⟨some "c0", true, some "main", none, none⟩
      "output/figures/f.pdf" 0 1 1 [] c5fs none "t0" (fun s0 => s0)) = none :=
  ⟨rfl, rfl⟩

/-! Claim C1. -/

/-- C1 fails on the code: the record written by write_build_record stores
the commit under the git mapping (git.commit = abc123), the current HEAD
is def456, require_current_head is 1 — yet the policy check passes,
because check_git_state.py reads the top-level key git_commit, which
write_build_record never writes, so the read yields the falsy default and
no artifact is ever collected as stale. -/
theorem C1_current_head_check_vacuous :
    check_git_state_main 0 1 1 "price_base" c1NewRepo c1prov = Except.ok () ∧
    ((c1Record.getD "git" (Yaml.map [])).getD "commit" (Yaml.s "")).strOf = "abc123" ∧
    ((git_state c1NewRepo).getD "commit" (Yaml.s "")).strOf = "def456" ∧
    c1Record.hasKey "git_commit" = false ∧
    ("abc123" : String) ≠ "def456" :=
  ⟨rfl, rfl, rfl, rfl, by decide⟩

/-! Claim C2. -/

/-- The current-head gate passes whenever the stale list is empty. -/
theorem head_check_none (gitinfo : Yaml) (rch : Int) (names : List String)
    (provDir : String → Option Yaml)
    (h : stale_of names provDir (gitinfo.getD "commit" (Yaml.s "")) = []) :
    head_check gitinfo rch names provDir = none := by
  simp only [head_check]
  split
  · split
    · simp [h]
    · rfl
  · rfl

/-- C2, the part that holds: when the policy check fails — the Publication
Policy Enforcer rejects, or it passes and the require-current-head gate
rejects — the artifact publisher aborts with that error, the file system
is exactly the input file system (zero files copied) and no ledger is
produced (the ledger file is only written by the final save). -/
theorem C2_policy_failure_copies_nothing (r : RepoStatus) (kind namesArg : String)
    (ad rnb rch : Int) (provDir : String → Option Yaml) (fs : FS)
    (ledger0 : Option (List (String × Yaml))) (now : String) (sha : String → String)
    (e : SysExit) :
    (enforce_git_policy r ad rnb = Except.error e →
      publish_artifacts_main r kind namesArg ad rnb rch provDir fs ledger0 now sha =
        Except.error (e, fs)) ∧
    (∀ gitinfo : Yaml, enforce_git_policy r ad rnb = Except.ok gitinfo →
      head_check gitinfo rch (split_names namesArg) provDir = some e →
      publish_artifacts_main r kind namesArg ad rnb rch provDir fs ledger0 now sha =
        Except.error (e, fs)) := by
  constructor
  · intro hpol
    unfold publish_artifacts_main
    rw [hpol]
  · intro gitinfo hpol hhead
    unfold publish_artifacts_main
    rw [hpol]
    cases hn : split_names namesArg with
    | nil =>
      rw [hn, head_check_none gitinfo rch [] provDir rfl] at hhead
      cases hhead
    | cons a as =>
      rw [hn] at hhead
      simp only [hn, List.isEmpty_cons, Bool.false_eq_true, if_false, hhead]

/-- Witness for both failure modes: a dirty tree with allow-dirty=0 makes
the publisher exit with the dirty-tree error, and a clean tree whose
record carries a stale truthy git_commit with require-current-head=1 makes
it exit with the stale-artifacts error — each time with untouched file
system and no ledger. -/
theorem C2_policy_failure_copies_nothing_witness :
    publish_artifacts_main ⟨some "c0", true, some "main", none, none⟩ "figures" "a" 0 1 0
      (fun _ => none) (fun _ => none) none "t0" (fun s0 => s0) =
      Except.error (SysExit.dirtyTree, (fun _ => none : FS)) ∧
    publish_artifacts_main ⟨some "c0", false, some "main", none, none⟩ "figures" "a" 0 1 1
      c2headProv (fun _ => none) none "t0" (fun s0 => s0) =
      Except.error (SysExit.staleArtifacts [("a", "olddead", "c0")], (fun _ => none : FS)) :=
  ⟨(C2_policy_failure_copies_nothing ⟨some "c0", true, some "main", none, none⟩ "figures"
      "a" 0 1 0 (fun _ => none) (fun _ => none) none "t0" (fun s0 => s0)
      SysExit.dirtyTree).1 rfl,
   (C2_policy_failure_copies_nothing ⟨some "c0", false, some "main", none, none⟩ "figures"
      "a" 0 1 1 c2headProv (fun _ => none) none "t0" (fun s0 => s0)
      (SysExit.staleArtifacts [("a", "olddead", "c0")])).2
      (git_state ⟨some "c0", false, some "main", none, none⟩) rfl rfl⟩

/-- C2 as stated is false: publishing artifacts a and b where the source
file of b is missing aborts with the missing-source error, yet the figure
of a has already been copied into the paper tree (the destination file
exists in the final file system and did not exist before), so the run is
partially applied.  The ledger is still untouched. -/
theorem C2_counterexample_partial_copy :
    errOf c2run = some (SysExit.missingSource "output/figures/b.pdf") ∧
    fsOf c2run "paper/figures/a.pdf" = some ⟨"A", 0⟩ ∧
    c2fs "paper/figures/a.pdf" = none ∧
    ledgerOf c2run = none :=
  ⟨rfl, rfl, rfl, rfl⟩

/-! Claim C9. -/

/-- The destination differs from its sibling temporary path. -/
theorem tmp_path_ne (p : String) : p ≠ tmp_path p := by
  intro h
  have h2 := congrArg String.length h
  rw [tmp_path, String.length_append] at h2
  have h3 : (".tmp" : String).length = 4 := rfl
  omega

/-- C9: the persistence discipline of write_build_record and save_yml is
atomic: interrupting after any strict prefix of the steps (in particular
after the temporary file was written but before the final rename) leaves
the destination path with exactly its old content, while running all steps
leaves the serialised new record there. -/
theorem C9_atomic_replace (path : String) (obj : Yaml) (dump : Yaml → String) (st0 : Store)
    (k : Nat) (hk : k < (save_yml path obj dump).length) :
    run_steps ((save_yml path obj dump).take k) st0 path = st0 path ∧
    run_steps (save_yml path obj dump) st0 path = some (dump obj) := by
  constructor
  · have hlen : (save_yml path obj dump).length = 2 := rfl
    rw [hlen] at hk
    interval_cases k
    · rfl
    · simp only [save_yml, atomic_replace_steps, List.take, run_steps, List.foldl]
      simp [tmp_path_ne path]
  · simp only [save_yml, atomic_replace_steps, run_steps, List.foldl]
    simp

/-- Witness: interrupting a concrete save after the temporary write leaves
the old record at the destination. -/
theorem C9_atomic_replace_witness :
    (1 < (save_yml "output/provenance/a.yml" (Yaml.s "NEW") (fun _ => "NEW")).length) ∧
    run_steps ((save_yml "output/provenance/a.yml" (Yaml.s "NEW") (fun _ => "NEW")).take 1)
      (fun p => if p = "output/provenance/a.yml" then some "OLD" else none)
      "output/provenance/a.yml" =
      (fun p => if p = "output/provenance/a.yml" then some "OLD" else none : Store)
        "output/provenance/a.yml" ∧
    run_steps (save_yml "output/provenance/a.yml" (Yaml.s "NEW") (fun _ => "NEW"))
      (fun p => if p = "output/provenance/a.yml" then some "OLD" else none)
      "output/provenance/a.yml" = some "NEW" :=
  ⟨by decide,
   (C9_atomic_replace "output/provenance/a.yml" (Yaml.s "NEW") (fun _ => "NEW")
     (fun p => if p = "output/provenance/a.yml" then some "OLD" else none) 1 (by decide)).1,
   (C9_atomic_replace "output/provenance/a.yml" (Yaml.s "NEW") (fun _ => "NEW")
     (fun p => if p = "output/provenance/a.yml" then some "OLD" else none) 1 (by decide)).2⟩

/-! Claim C8. -/

/-- The hashing loop fails, naming a missing path of the list, whenever
some path of the list does not exist. -/
theorem hash_records_error_of_missing (sha : String → String) (fs : FS) (paths : List String)
    (h : ∃ p ∈ paths, fs p = none) :
    ∃ q ∈ paths, fs q = none ∧
      hash_records sha fs paths = Except.error (WriteErr.fileNotFound q) := by
  induction paths with
  | nil => simp at h
  | cons p rest ih =>
    cases hp : fs p with
    | none => exact ⟨p, by simp, hp, by simp [hash_records, hp]⟩
    | some fd =>
      have h2 : ∃ q ∈ rest, fs q = none := by
        obtain ⟨q, hq, hqn⟩ := h
        rcases List.mem_cons.mp hq with rfl | hmem
        · rw [hp] at hqn
          cases hqn
        · exact ⟨q, hmem, hqn⟩
      obtain ⟨q, hq, hqn, herr⟩ := ih h2
      exact ⟨q, List.mem_cons_of_mem _ hq, hqn, by simp [hash_records, hp, herr]⟩

/-- The hashing loop succeeds when every path of the list exists. -/
theorem hash_records_ok_of_all (sha : String → String) (fs : FS) (paths : List String)
    (h : ∀ p ∈ paths, fs p ≠ none) :
    ∃ rs, hash_records sha fs paths = Except.ok rs := by
  induction paths with
  | nil => exact ⟨[], rfl⟩
  | cons p rest ih =>
    cases hp : fs p with
    | none => exact absurd hp (h p (by simp))
    | some fd =>
      obtain ⟨rs, hrs⟩ := ih (fun q hq => h q (List.mem_cons_of_mem _ hq))
      refine ⟨Yaml.map [("path", Yaml.s p), ("sha256", Yaml.s (sha fd.content)),
        ("bytes", Yaml.i fd.content.length), ("mtime", Yaml.i fd.mtime)] :: rs, ?_⟩
      simp [hash_records, hp, hrs]

/-- C8: when some declared input or output path does not exist, the Build
Record Writer fails with the error naming a missing path of the call, and
the destination store is untouched — no record is created for a file that
does not exist. -/
theorem C8_missing_path_no_record (outMeta artifactName : String) (command : List String)
    (r : RepoStatus) (inputs outputs : List String) (fs : FS) (now : String)
    (sha : String → String) (dump : Yaml → String) (st : Store)
    (h : ∃ p ∈ inputs ++ outputs, fs p = none) :
    ∃ q ∈ inputs ++ outputs, fs q = none ∧
      write_build_record_store outMeta artifactName command r inputs outputs fs now sha
        dump st = (st, Except.error (WriteErr.fileNotFound q)) := by
  by_cases hin : ∃ p ∈ inputs, fs p = none
  · obtain ⟨q, hq, hqn, herr⟩ := hash_records_error_of_missing sha fs inputs hin
    refine ⟨q, List.mem_append_left _ hq, hqn, ?_⟩
    simp [write_build_record_store, write_build_record, herr]
  · have hall : ∀ p ∈ inputs, fs p ≠ none := by
      intro p hp
      exact fun hn => hin ⟨p, hp, hn⟩
    obtain ⟨rs, hok⟩ := hash_records_ok_of_all sha fs inputs hall
    have hout : ∃ p ∈ outputs, fs p = none := by
      obtain ⟨p, hp, hpn⟩ := h
      rcases List.mem_append.mp hp with hmem | hmem
      · exact absurd hpn (hall p hmem)
      · exact ⟨p, hmem, hpn⟩
    obtain ⟨q, hq, hqn, herr⟩ := hash_records_error_of_missing sha fs outputs hout
    refine ⟨q, List.mem_append_right _ hq, hqn, ?_⟩
    simp [write_build_record_store, write_build_record, hok, herr]

/-- Witness: writing a record whose only output is missing fails naming
that output, leaving the store untouched. -/
theorem C8_missing_path_no_record_witness :
    ∃ q ∈ ([] ++ ["output/figures/a.pdf"] : List String),
      (fun _ => (none : Option FileData)) q = none ∧
      write_build_record_store "output/provenance/a.yml" "a" ["make", "a"]
        ⟨some "c0", false, some "main", none, none⟩ [] ["output/figures/a.pdf"]
        (fun _ => none) "t0" (fun s0 => s0) (fun _ => "Y") (fun _ => none) =
        ((fun _ => none : Store), Except.error (WriteErr.fileNotFound q)) :=
  C8_missing_path_no_record "output/provenance/a.yml" "a" ["make", "a"]
    ⟨some "c0", false, some "main", none, none⟩ [] ["output/figures/a.pdf"]
    (fun _ => none) "t0" (fun s0 => s0) (fun _ => "Y") (fun _ => none)
    ⟨"output/figures/a.pdf", by decide, rfl⟩

/-! Claim C6. -/

/-- C6: with allow_dirty unset, a clean working tree and the behind gate
passing, the policy check rejects as soon as some named artifact has a
dirty Build Record, and the one combined error carries the list of all
offending artifacts: a name is in that list exactly when it is in the
argument list and its record is dirty. -/
theorem C6_all_dirty_artifacts_reported (c : String) (br up : Option String)
    (ab : Option (Int × Int)) (rnb rch : Int) (artifactsArg : String)
    (provDir : String → Option Yaml)
    (hb : behind_exit (git_state ⟨some c, false, br, up, ab⟩) rnb = none)
    (hne : dirty_artifacts_of (split_names artifactsArg) provDir ≠ []) :
    check_git_state_main 0 rnb rch artifactsArg ⟨some c, false, br, up, ab⟩ provDir =
      Except.error
        (SysExit.dirtyArtifacts (dirty_artifacts_of (split_names artifactsArg) provDir)) ∧
    ∀ n, n ∈ dirty_artifacts_of (split_names artifactsArg) provDir ↔
      (n ∈ split_names artifactsArg ∧ record_dirty provDir n = true) := by
  constructor
  · have step : check_git_state_main 0 rnb rch artifactsArg ⟨some c, false, br, up, ab⟩
        provDir =
        (match behind_exit (git_state ⟨some c, false, br, up, ab⟩) rnb with
         | some e => Except.error e
         | none =>
           let names := split_names artifactsArg
           if names.isEmpty then Except.ok ()
           else artifact_checks (git_state ⟨some c, false, br, up, ab⟩) 0 rch names
             provDir) := rfl
    rw [step, hb]
    cases hn : split_names artifactsArg with
    | nil =>
      rw [hn] at hne
      exact absurd rfl hne
    | cons a as =>
      rw [hn] at hne
      have hd : (dirty_artifacts_of (a :: as) provDir).isEmpty = false := by
        cases hdd : dirty_artifacts_of (a :: as) provDir with
        | nil => exact absurd hdd hne
        | cons x xs => rfl
      simp only [List.isEmpty_cons, if_neg (by simp : ¬((a :: as).isEmpty = true))]
      unfold artifact_checks
      simp [hd]
  · intro n
    simp [dirty_artifacts_of, List.mem_filter]

/-- Witness: the combined error names both dirty artifacts, not just the
first. -/
theorem C6_all_dirty_artifacts_reported_witness :
    check_git_state_main 0 1 0 "a1 a2" ⟨some "c0", false, some "main", none, none⟩ c6prov =
      Except.error (SysExit.dirtyArtifacts ["a1", "a2"]) :=
  ((C6_all_dirty_artifacts_reported "c0" (some "main") none none 1 0 "a1 a2" c6prov rfl
    (by decide)).1).trans rfl

/-! Claim C4. -/

/-- The file-level loop only ever assigns the files key of the ledger:
every other key is present in the final ledger exactly when it was present
before the loop. -/
theorem files_loop_hasKey_ne (provFiles : List (String × Yaml)) (now : String)
    (sha : String → String) (files : List String) (fs fs1 : FS) (prov prov1 : Yaml)
    (k : String) (hk : k ≠ "files")
    (hok : files_loop provFiles now sha files fs prov = Except.ok (fs1, prov1)) :
    prov1.hasKey k = prov.hasKey k := by
  induction files generalizing fs prov with
  | nil =>
    simp only [files_loop] at hok
    cases hok
    rfl
  | cons src rest ih =>
    simp only [files_loop] at hok
    split at hok
    · simp at hok
    · split at hok
      · simp at hok
      · exact (ih _ _ hok).trans (hasKey_set_ne _ _ _ _ (Ne.symm hk))

/-- The file-level loop never removes a ledger key. -/
theorem files_loop_hasKey_true (provFiles : List (String × Yaml)) (now : String)
    (sha : String → String) (files : List String) (fs fs1 : FS) (prov prov1 : Yaml)
    (k : String) (hk : prov.hasKey k = true)
    (hok : files_loop provFiles now sha files fs prov = Except.ok (fs1, prov1)) :
    prov1.hasKey k = true := by
  induction files generalizing fs prov with
  | nil =>
    simp only [files_loop] at hok
    cases hok
    exact hk
  | cons src rest ih =>
    simp only [files_loop] at hok
    split at hok
    · simp at hok
    · split at hok
      · simp at hok
      · exact ih _ _ (hasKey_set_of_hasKey _ _ _ _ hk) hok

/-- The analysis-level loop only ever assigns the artifacts key. -/
theorem publish_loop_hasKey_ne (kind : String) (provDir : String → Option Yaml)
    (now : String) (sha : String → String) (names : List String) (fs fs1 : FS)
    (prov prov1 : Yaml) (k : String) (hk : k ≠ "artifacts")
    (hok : publish_loop kind provDir now sha names fs prov = Except.ok (fs1, prov1)) :
    prov1.hasKey k = prov.hasKey k := by
  induction names generalizing fs prov with
  | nil =>
    simp only [publish_loop] at hok
    cases hok
    rfl
  | cons name rest ih =>
    simp only [publish_loop] at hok
    split at hok
    · simp at hok
    · split at hok
      · simp at hok
      · exact (ih _ _ hok).trans (hasKey_set_ne _ _ _ _ (Ne.symm hk))

/-- The analysis-level loop never removes a ledger key. -/
theorem publish_loop_hasKey_true (kind : String) (provDir : String → Option Yaml)
    (now : String) (sha : String → String) (names : List String) (fs fs1 : FS)
    (prov prov1 : Yaml) (k : String) (hk : prov.hasKey k = true)
    (hok : publish_loop kind provDir now sha names fs prov = Except.ok (fs1, prov1)) :
    prov1.hasKey k = true := by
  induction names generalizing fs prov with
  | nil =>
    simp only [publish_loop] at hok
    cases hok
    exact hk
  | cons name rest ih =>
    simp only [publish_loop] at hok
    split at hok
    · simp at hok
    · split at hok
      · simp at hok
      · exact ih _ _ (hasKey_set_of_hasKey _ _ _ _ hk) hok

/-- C4, amended: the mode switch is destructive in one direction only.  A
successful file-level publish always leaves a ledger with a files section
and no artifacts section; but a successful analysis-level publish does not
remove an existing files section — it leaves both sections in the ledger. -/
theorem C4_mode_sections_one_directional :
    (∀ (r : RepoStatus) (filesArg : String) (ad rnb rch : Int)
        (provFiles : List (String × Yaml)) (fs : FS)
        (ledger0 : Option (List (String × Yaml))) (now : String) (sha : String → String)
        (fs1 : FS) (L : Yaml),
        publish_specific_files_main r filesArg ad rnb rch provFiles fs ledger0 now sha =
          Except.ok (fs1, L) →
        L.hasKey "artifacts" = false ∧ L.hasKey "files" = true) ∧
    (∀ (r : RepoStatus) (kind namesArg : String) (ad rnb rch : Int)
        (provDir : String → Option Yaml) (fs : FS) (l0 : List (String × Yaml))
        (now : String) (sha : String → String) (fs1 : FS) (L : Yaml),
        (Yaml.map l0).hasKey "files" = true →
        publish_artifacts_main r kind namesArg ad rnb rch provDir fs (some l0) now sha =
          Except.ok (fs1, L) →
        L.hasKey "files" = true ∧ L.hasKey "artifacts" = true) := by
  constructor
  · intro r filesArg ad rnb rch provFiles fs ledger0 now sha fs1 L hok
    simp only [publish_specific_files_main] at hok
    split at hok
    · simp at hok
    · split at hok
      · simp at hok
      · rename_i fsx provx heq
        cases hok
        have hmap0 : (Yaml.map (ledger0.getD [])).isMap = true := rfl
        have hmap : ((((Yaml.map (ledger0.getD [])).setD "paper_provenance_version"
            (Yaml.i 1)).setD "last_updated_utc" (Yaml.s now)).setD "analysis_git"
            (git_state r)).isMap = true :=
          isMap_setD _ _ _ (isMap_setD _ _ _ (isMap_setD _ _ _ hmap0))
        constructor
        · rw [hasKey_set_ne _ _ _ _ (by decide : "last_updated_utc" ≠ "artifacts")]
          rw [files_loop_hasKey_ne _ _ _ _ _ _ _ _ "artifacts" (by decide) heq]
          exact hasKey_del_self _ _
        · rw [hasKey_set_ne _ _ _ _ (by decide : "last_updated_utc" ≠ "files")]
          refine files_loop_hasKey_true _ _ _ _ _ _ _ _ "files" ?_ heq
          rw [hasKey_del_ne _ _ _ (by decide : "artifacts" ≠ "files")]
          exact hasKey_set_self _ _ _ hmap
  · intro r kind namesArg ad rnb rch provDir fs l0 now sha fs1 L hfiles hok
    simp only [publish_artifacts_main] at hok
    split at hok
    · simp at hok
    · split at hok
      · simp at hok
      · split at hok
        · simp at hok
        · split at hok
          · simp at hok
          · rename_i fsx provx heq
            cases hok
            constructor
            · rw [hasKey_set_ne _ _ _ _ (by decide : "last_updated_utc" ≠ "files")]
              refine publish_loop_hasKey_true _ _ _ _ _ _ _ _ _ "files" ?_ heq
              exact hasKey_setD_of_hasKey _ _ _ _ (hasKey_setD_of_hasKey _ _ _ _
                (hasKey_setD_of_hasKey _ _ _ _ (hasKey_setD_of_hasKey _ _ _ _ hfiles)))
            · rw [hasKey_set_ne _ _ _ _ (by decide : "last_updated_utc" ≠ "artifacts")]
              refine publish_loop_hasKey_true _ _ _ _ _ _ _ _ _ "artifacts" ?_ heq
              exact hasKey_setD_self _ _ _
                (isMap_setD _ _ _ (isMap_setD _ _ _ (isMap_setD _ _ _ rfl)))

/-- Witness for the amended claim at concrete runs: the file-level publish
onto a ledger with an artifacts section yields a ledger without it, and
the analysis-level publish onto a ledger with a files section keeps both
sections. -/
theorem C4_mode_sections_one_directional_witness :
    (((ledgerOf c4fileRun).getD Yaml.nullv).hasKey "artifacts" = false ∧
      ((ledgerOf c4fileRun).getD Yaml.nullv).hasKey "files" = true) ∧
    (((ledgerOf c4run).getD Yaml.nullv).hasKey "files" = true ∧
      ((ledgerOf c4run).getD Yaml.nullv).hasKey "artifacts" = true) :=
  ⟨C4_mode_sections_one_directional.1 ⟨some "c0", false, some "main", none, none⟩
      "output/figures/g.pdf" 0 1 0 []
      (fun p => if p = "output/figures/g.pdf" then some ⟨"G", 0⟩ else none)
      (some c4aledger) "t0" (fun s0 => s0) (fsOf c4fileRun)
      ((ledgerOf c4fileRun).getD Yaml.nullv) rfl,
   C4_mode_sections_one_directional.2 ⟨some "c0", false, some "main", none, none⟩
      "figures" "a" 0 1 0 c4prov c4fs c4ledger "t0" (fun s0 => s0) (fsOf c4run)
      ((ledgerOf c4run).getD Yaml.nullv) rfl rfl⟩

/-- C4 as stated is false: an analysis-level publish of artifact a onto a
ledger previously written by a file-level publish succeeds and leaves a
ledger holding both the artifacts section and the files section, so the
publish did not clear the other mode. -/
theorem C4_counterexample_both_sections :
    (ledgerOf c4run).isSome = true ∧
    ((ledgerOf c4run).getD Yaml.nullv).hasKey "artifacts" = true ∧
    ((ledgerOf c4run).getD Yaml.nullv).hasKey "files" = true :=
  ⟨rfl, rfl, rfl⟩

/-! Claim C3. -/

/-- copy_if_changed skips the copy and returns the file system unchanged
when the destination exists and the digests agree. -/
theorem copy_if_changed_skip (sha : String → String) (fs : FS) (src dst : String)
    (d d1 : FileData) (hsrc : fs src = some d) (hdst : fs dst = some d1)
    (hc : sha d.content = sha d1.content) :
    copy_if_changed sha fs src dst = (false, fs) := by
  unfold copy_if_changed
  rw [hsrc, hdst]
  simp [hc]

/-- C3, amended: republishing an artifact whose destination already holds
content identical to the source skips the copy (copied=false), leaves the
file system unchanged, and records a dst_sha256 equal to the digest of the
unchanged destination content — but the ledger entry published_at_utc is
set to the current publish time, not kept at its prior value. -/
theorem C3_republish_skips_copy_but_restamps (r : RepoStatus) (kind namesArg name : String)
    (ad rnb rch : Int) (provDir : String → Option Yaml) (fs : FS)
    (l0 : List (String × Yaml)) (now : String) (sha : String → String)
    (gitinfo meta : Yaml) (d d1 : FileData)
    (hpol : enforce_git_policy r ad rnb = Except.ok gitinfo)
    (hsplit : split_names namesArg = [name])
    (hstale : stale_of [name] provDir (gitinfo.getD "commit" (Yaml.s "")) = [])
    (hrec : provDir name = some meta)
    (hsrc : fs (src_path kind name) = some d)
    (hdst : fs (dst_path kind name) = some d1)
    (hc : d1.content = d.content)
    (hart : ((Yaml.map l0).getD "artifacts" (Yaml.map [])).isMap = true)
    (hartname : (((Yaml.map l0).getD "artifacts" (Yaml.map [])).getD name
      (Yaml.map [])).isMap = true) :
    ∃ L, publish_artifacts_main r kind namesArg ad rnb rch provDir fs (some l0) now sha =
        Except.ok (fs, L) ∧
      ((L.getD "artifacts" (Yaml.map [])).getD name (Yaml.map [])).getD kind (Yaml.map []) =
        Yaml.map [("published_at_utc", Yaml.s now), ("copied", Yaml.b false),
          ("src", Yaml.s (src_path kind name)), ("dst", Yaml.s (dst_path kind name)),
          ("dst_sha256", Yaml.s (sha d1.content)), ("build_record", meta)] := by
  have hkey : sha d.content = sha d1.content := by rw [hc]
  unfold publish_artifacts_main
  rw [hpol]
  simp only [hsplit, List.isEmpty_cons, Bool.false_eq_true, if_false, Option.getD_some,
    head_check_none gitinfo rch [name] provDir hstale]
  simp only [publish_loop, hrec, hsrc,
    copy_if_changed_skip sha fs (src_path kind name) (dst_path kind name) d d1 hsrc hdst
      hkey, hdst]
  refine ⟨_, rfl, ?_⟩
  have hmap3 : ((((Yaml.map l0).setD "paper_provenance_version" (Yaml.i 1)).setD
      "last_updated_utc" (Yaml.s now)).setD "analysis_git" gitinfo).isMap = true :=
    isMap_setD _ _ _ (isMap_setD _ _ _ (isMap_setD _ _ _ rfl))
  have hA : (((((Yaml.map l0).setD "paper_provenance_version" (Yaml.i 1)).setD
      "last_updated_utc" (Yaml.s now)).setD "analysis_git" gitinfo).setD "artifacts"
      (Yaml.map [])).getD "artifacts" (Yaml.map []) =
      (Yaml.map l0).getD "artifacts" (Yaml.map []) := by
    rw [getD_setD _ _ _ _ hmap3]
    rw [getD_setD_ne _ _ _ _ _ (by decide : "analysis_git" ≠ "artifacts")]
    rw [getD_setD_ne _ _ _ _ _ (by decide : "last_updated_utc" ≠ "artifacts")]
    rw [getD_setD_ne _ _ _ _ _ (by decide : "paper_provenance_version" ≠ "artifacts")]
  rw [getD_set_ne _ _ _ _ _ (by decide : "last_updated_utc" ≠ "artifacts")]
  rw [getD_set_self _ _ _ _ (isMap_setD _ _ _ hmap3)]
  rw [hA]
  rw [getD_set_self _ _ _ _ hart]
  rw [getD_set_self _ _ _ _ hartname]

/-- Witness: the amended claim at the concrete second run of the scenario
(destination content identical to the source). -/
theorem C3_republish_skips_copy_but_restamps_witness :
    ∃ L, publish_artifacts_main c3Repo "figures" "a" 0 1 0 c3prov (fsOf c3run1)
        (some (yamlEntries ((ledgerOf c3run1).getD Yaml.nullv))) "t1" (fun s0 => s0) =
        Except.ok (fsOf c3run1, L) ∧
      ((L.getD "artifacts" (Yaml.map [])).getD "a" (Yaml.map [])).getD "figures"
          (Yaml.map []) =
        Yaml.map [("published_at_utc", Yaml.s "t1"), ("copied", Yaml.b false),
          ("src", Yaml.s (src_path "figures" "a")), ("dst", Yaml.s (dst_path "figures" "a")),
          ("dst_sha256", Yaml.s "PDF"), ("build_record", Yaml.map [("artifact", Yaml.s "a")])]
    :=
  C3_republish_skips_copy_but_restamps c3Repo "figures" "a" "a" 0 1 0 c3prov (fsOf c3run1)
    (yamlEntries ((ledgerOf c3run1).getD Yaml.nullv)) "t1" (fun s0 => s0)
    (git_state c3Repo) (Yaml.map [("artifact", Yaml.s "a")]) ⟨"PDF", 0⟩ ⟨"PDF", 0⟩
    rfl rfl rfl rfl rfl rfl rfl rfl rfl

/-- C3 as stated is false: the second publish of the unchanged artifact
records copied=false and the same dst_sha256, but its published_at_utc is
the second run time t1, not the prior value t0 recorded by the first
run. -/
theorem C3_counterexample_timestamp_restamped :
    (c3entry c3run1).getD "published_at_utc" Yaml.nullv = Yaml.s "t0" ∧
    (c3entry c3run2).getD "published_at_utc" Yaml.nullv = Yaml.s "t1" ∧
    (c3entry c3run2).getD "copied" Yaml.nullv = Yaml.b false ∧
    (c3entry c3run2).getD "dst_sha256" Yaml.nullv =
      (c3entry c3run1).getD "dst_sha256" Yaml.nullv ∧
    ("t1" : String) ≠ "t0" :=
  ⟨rfl, rfl, rfl, rfl, by decide⟩

end Repro
